import Mathlib

/-!
Verification of the hyperliquid trading bot core against its specification.

The Python modules under src/ are shallowly embedded: Python floats are
modelled as exact rationals, dictionaries with optional keys as structures
with Option fields, raised exceptions as Except values, and venue
interaction as explicit response parameters.  Each embedded definition
mirrors the corresponding Python function; doc comments name the source
location.  All definitions come first; the theorems follow.
-/

/-- Python exceptions that the embedded code can raise. -/
inductive PyErr where
  | zeroDivision
  | typeError
  | generic (msg : String)
  deriving DecidableEq, Repr

/-- Division as Python performs it: raises ZeroDivisionError on a zero
divisor instead of returning a junk value. -/
def pyDiv (a b : ℚ) : Except PyErr ℚ :=
  if b = 0 then .error .zeroDivision else .ok (a / b)

/-- Round-half-to-even on rationals, the tie-breaking rule of Python's
built-in round. -/
def roundHalfEven (q : ℚ) : ℤ :=
  let f : ℤ := ⌊q⌋
  let r : ℚ := q - f
  if r < 1/2 then f
  else if 1/2 < r then f + 1
  else if f % 2 = 0 then f else f + 1

/-- Python's round(x, n) for nonnegative n, on the exact-rational model of
floats. -/
def pyRound (q : ℚ) (n : ℕ) : ℚ :=
  (roundHalfEven (q * 10 ^ n) : ℚ) / 10 ^ n

/-! ## Order Ledger (src/order_manager.py) -/

namespace OrderManager

/-- src/order_manager.py OrderSide. -/
inductive OrderSide where
  | buy
  | sell
  deriving DecidableEq, Repr

/-- src/order_manager.py OrderStatus (partFilled stands for the
PARTIALLY_FILLED member). -/
inductive OrderStatus where
  | pending
  | filled
  | partFilled
  | cancelled
  | rejected
  deriving DecidableEq, Repr

/-- Time-in-force of a limit order: Gtc, or Alo when post-only. -/
inductive Tif where
  | gtc
  | alo
  deriving DecidableEq, Repr

/-- The order_type dict: either market or limit with a time-in-force. -/
inductive OrderType where
  | market
  | limit (tif : Tif)
  deriving DecidableEq, Repr

/-- src/order_manager.py Order dataclass (the creation timestamp, unused by
any claim, is omitted). -/
structure Order where
  id : Option ℤ
  coin : String
  side : OrderSide
  size : ℚ
  price : ℚ
  order_type : OrderType
  reduce_only : Bool
  status : OrderStatus
  filled_size : ℚ
  deriving DecidableEq, Repr

/-- One entry of result.response.data.statuses in the venue's order
acknowledgement; oid = none models an entry without an oid key. -/
structure OidStatus where
  oid : Option ℤ
  deriving DecidableEq, Repr

/-- The venue's reply to exchange.order.  status models the value of the
top-level status key (none = key absent); statuses = some l models the
response.data.statuses chain being present with list l, none models any of
those keys missing. -/
structure PlaceResponse where
  status : Option String
  statuses : Option (List OidStatus)
  deriving DecidableEq, Repr

/-- The active-order dict, as an insertion-ordered association list. -/
abbrev ActiveOrders := List (ℤ × Order)

/-- Python dict assignment: overwrite in place if the key exists, else
append. -/
def dictInsert (m : ActiveOrders) (k : ℤ) (v : Order) : ActiveOrders :=
  if m.any (fun p => p.1 = k) then
    m.map (fun p => if p.1 = k then (k, v) else p)
  else m ++ [(k, v)]

/-- Python dict lookup, as an Option. -/
def dictLookup (m : ActiveOrders) (k : ℤ) : Option Order :=
  (m.find? (fun p => p.1 = k)).map (fun p => p.2)

/-- src/order_manager.py OrderManager._place_order (lines 93-122).  The
venue call is the reply parameter: .error models a raised transport
exception, .ok none a falsy result, .ok (some r) a response dict.  Returns
(the Python return value, the active set afterwards, the locally built
order after any status mutation). -/
def place_order (active : ActiveOrders) (order : Order)
    (reply : Except PyErr (Option PlaceResponse)) :
    Option Order × ActiveOrders × Order :=
  match reply with
  | .error _ => (none, active, { order with status := .rejected })
  | .ok none => (none, active, { order with status := .rejected })
  | .ok (some r) =>
    if r.status = some "ok" then
      match r.statuses with
      | some (s :: _) =>
        match s.oid with
        | some i =>
          let o := { order with id := some i }
          (some o, dictInsert active i o, o)
        | none => (none, active, { order with status := .rejected })
      | _ => (none, active, { order with status := .rejected })
    else (none, active, { order with status := .rejected })

/-- src/order_manager.py OrderManager.create_limit_order (lines 50-72):
builds a Pending limit order (tif Alo when post_only) and submits it. -/
def create_limit_order (active : ActiveOrders) (coin : String)
    (side : OrderSide) (size price : ℚ) (reduce_only post_only : Bool)
    (reply : Except PyErr (Option PlaceResponse)) :
    Option Order × ActiveOrders × Order :=
  place_order active
    { id := none, coin := coin, side := side, size := size, price := price
      order_type := .limit (if post_only then .alo else .gtc)
      reduce_only := reduce_only, status := .pending, filled_size := 0 }
    reply

/-- src/order_manager.py OrderManager.create_market_order (lines 74-91):
builds a Pending market order with price 0 and submits it. -/
def create_market_order (active : ActiveOrders) (coin : String)
    (side : OrderSide) (size : ℚ) (reduce_only : Bool)
    (reply : Except PyErr (Option PlaceResponse)) :
    Option Order × ActiveOrders × Order :=
  place_order active
    { id := none, coin := coin, side := side, size := size, price := 0
      order_type := .market
      reduce_only := reduce_only, status := .pending, filled_size := 0 }
    reply

/-- The oid under which _place_order succeeds: some i exactly when the
reply has status ok and its first statuses entry carries oid i. -/
def placeOid (reply : Except PyErr (Option PlaceResponse)) : Option ℤ :=
  match reply with
  | .ok (some r) =>
    if r.status = some "ok" then
      match r.statuses with
      | some (s :: _) => s.oid
      | _ => none
    else none
  | _ => none

/-- One record of the venue's fill history (the fields read by
update_order_status). -/
structure Fill where
  oid : ℤ
  sz : ℚ
  deriving DecidableEq, Repr

/-- The status update applied by update_order_status to a tracked order
that is no longer open: the first fill record with its id marks it Filled
with that record's size (the for/break), otherwise (the for/else) it is
marked Cancelled. -/
def reconcile_order (fills : List Fill) (order_id : ℤ) (o : Order) : Order :=
  match fills.find? (fun f => f.oid = order_id) with
  | some f => { o with filled_size := f.sz, status := .filled }
  | none => { o with status := .cancelled }

/-- src/order_manager.py OrderManager.update_order_status (lines 172-192)
against a fixed venue state: openIds is the venue's open-order id list,
fills its fill history.  Returns the active set afterwards and the removed
orders with their final statuses.  The Python code iterates a snapshot of
the items and deletes each order whose id is not open, which is exactly a
filter on the dict. -/
def update_order_status (active : ActiveOrders) (openIds : List ℤ)
    (fills : List Fill) : ActiveOrders × List (ℤ × Order) :=
  (active.filter (fun p => openIds.contains p.1),
   (active.filter (fun p => !(openIds.contains p.1))).map
     (fun p => (p.1, reconcile_order fills p.1 p.2)))

end OrderManager

/-! ## Risk Monitor (src/risk_manager.py) -/

namespace RiskManager

/-- The marginSummary dict of the venue's user state; each field is the
value at the respective key, none when the key is absent (the code reads
them with .get(key, 0)). -/
structure MarginSummary where
  accountValue : Option ℚ
  totalMarginUsed : Option ℚ
  totalNtlPos : Option ℚ
  deriving DecidableEq, Repr

/-- The venue's user-state payload: marginSummary = none models a payload
without that key; assetPositions = none models a payload without that key
(the code reads it with .get, only its length is used here). -/
structure UserState where
  marginSummary : Option MarginSummary
  assetPositions : Option (List Unit)
  deriving DecidableEq, Repr

/-- src/risk_manager.py RiskMetrics dataclass (the timestamp, unused by
any claim, is omitted). -/
structure RiskMetrics where
  total_balance : ℚ
  available_balance : ℚ
  margin_used : ℚ
  total_position_value : ℚ
  unrealized_pnl : ℚ
  realized_pnl : ℚ
  leverage : ℚ
  margin_ratio : ℚ
  num_positions : ℕ
  deriving DecidableEq, Repr

/-- The configuration fields RiskManager reads in __init__. -/
structure RMConfig where
  max_leverage : ℚ
  max_position_size_pct : ℚ
  max_drawdown_pct : ℚ
  daily_loss_limit_pct : ℚ
  deriving DecidableEq, Repr

/-- The mutable RiskManager state: baselines, day marker (dates as
integers), bounded metrics history. -/
structure RMState where
  starting_balance : Option ℚ
  daily_starting_balance : Option ℚ
  last_reset_date : ℤ
  history : List RiskMetrics
  deriving DecidableEq, Repr

/-- src/risk_manager.py RiskManager.get_current_metrics (lines 38-91).
The gateway call is the fetch parameter: .error models a raised exception
(caught, returning None), .ok none models a falsy payload, .ok (some u) a
user-state dict.  today is the current local date.  Returns the Python
return value and the state afterwards. -/
def get_current_metrics (st : RMState) (today : ℤ)
    (fetch : Except PyErr (Option UserState)) :
    Option RiskMetrics × RMState :=
  match fetch with
  | .error _ => (none, st)
  | .ok none => (none, st)
  | .ok (some u) =>
    match u.marginSummary with
    | none => (none, st)
    | some ms =>
      let account_value := ms.accountValue.getD 0
      let total_margin_used := ms.totalMarginUsed.getD 0
      let total_position_value := ms.totalNtlPos.getD 0
      let metrics : RiskMetrics :=
        { total_balance := account_value
          available_balance := account_value - total_margin_used
          margin_used := total_margin_used
          total_position_value := total_position_value
          unrealized_pnl := 0
          realized_pnl := 0
          leverage :=
            if 0 < account_value then total_position_value / account_value
            else 0
          margin_ratio :=
            if 0 < account_value then total_margin_used / account_value
            else 0
          num_positions := (u.assetPositions.getD []).length }
      let st1 :=
        if st.starting_balance = none then
          { st with starting_balance := some metrics.total_balance
                    daily_starting_balance := some metrics.total_balance }
        else st
      let st2 :=
        if st1.last_reset_date < today then
          { st1 with daily_starting_balance := some metrics.total_balance
                     last_reset_date := today }
        else st1
      let hist := st2.history ++ [metrics]
      let st3 :=
        { st2 with history :=
            if 1000 < hist.length then hist.drop (hist.length - 500)
            else hist }
      (some metrics, st3)

/-- src/risk_manager.py RiskManager._check_drawdown (lines 127-132).  The
falsiness test `if not self.starting_balance` is true for both a missing
(None) and a zero baseline; the division is modelled by pyDiv so a
zero-divisor division would surface as an error. -/
def check_drawdown (cfg : RMConfig) (st : RMState) (m : RiskMetrics) :
    Except PyErr Bool :=
  match st.starting_balance with
  | none => .ok true
  | some sb =>
    if sb = 0 then .ok true
    else do
      let drawdown ← pyDiv (sb - m.total_balance) sb
      .ok (decide (drawdown ≤ cfg.max_drawdown_pct))

/-- src/risk_manager.py RiskManager._check_daily_loss (lines 134-139),
modelled like check_drawdown. -/
def check_daily_loss (cfg : RMConfig) (st : RMState) (m : RiskMetrics) :
    Except PyErr Bool :=
  match st.daily_starting_balance with
  | none => .ok true
  | some db =>
    if db = 0 then .ok true
    else do
      let daily_loss ← pyDiv (db - m.total_balance) db
      .ok (decide (daily_loss ≤ cfg.daily_loss_limit_pct))

/-- The dict returned by check_risk_limits: the four per-check keys are
absent (none) in the no-metrics branch; reason is absent when all checks
pass.  Numeric formatting of the Python message is abstracted by
toString. -/
structure RiskChecks where
  leverage_ok : Option Bool
  margin_ratio_ok : Option Bool
  drawdown_ok : Option Bool
  daily_loss_ok : Option Bool
  all_checks_passed : Bool
  reason : Option String
  deriving DecidableEq, Repr

/-- The dict {all_checks_passed: False, reason: "No metrics available"}
returned when metrics are unavailable. -/
def noMetricsChecks : RiskChecks :=
  { leverage_ok := none, margin_ratio_ok := none, drawdown_ok := none
    daily_loss_ok := none, all_checks_passed := false
    reason := some "No metrics available" }

/-- src/risk_manager.py RiskManager.check_risk_limits (lines 93-125).
Returns the checks dict (an uncaught exception inside a sub-check would
propagate as .error) together with the state after the metrics fetch. -/
def check_risk_limits (cfg : RMConfig) (st : RMState) (today : ℤ)
    (fetch : Except PyErr (Option UserState)) :
    Except PyErr RiskChecks × RMState :=
  match get_current_metrics st today fetch with
  | (none, st') => (.ok noMetricsChecks, st')
  | (some m, st') =>
    ( do
        let leverage_ok := decide (m.leverage ≤ cfg.max_leverage)
        let margin_ratio_ok := decide (m.margin_ratio < 4/5)
        let drawdown_ok ← check_drawdown cfg st' m
        let daily_loss_ok ← check_daily_loss cfg st' m
        let allp := leverage_ok && margin_ratio_ok && drawdown_ok &&
          daily_loss_ok
        let reasons : List String :=
          (if leverage_ok then [] else
            ["Leverage too high: " ++ toString m.leverage]) ++
          (if margin_ratio_ok then [] else
            ["Margin ratio too high: " ++ toString m.margin_ratio]) ++
          (if drawdown_ok then [] else ["Max drawdown exceeded"]) ++
          (if daily_loss_ok then [] else ["Daily loss limit exceeded"])
        .ok { leverage_ok := some leverage_ok
              margin_ratio_ok := some margin_ratio_ok
              drawdown_ok := some drawdown_ok
              daily_loss_ok := some daily_loss_ok
              all_checks_passed := allp
              reason :=
                if allp then none
                else some (String.intercalate "; " reasons) }
      , st' )

/-- src/risk_manager.py RiskManager.calculate_position_size_limit (lines
141-155): fetches metrics (0 if unavailable), then
min(total balance * max_position_size_pct,
    available balance * max_leverage) / price. -/
def calculate_position_size_limit (cfg : RMConfig) (st : RMState)
    (today : ℤ) (fetch : Except PyErr (Option UserState))
    (current_price : ℚ) : ℚ :=
  match (get_current_metrics st today fetch).1 with
  | none => 0
  | some m =>
    let max_position_value := m.total_balance * cfg.max_position_size_pct
    let available_margin := m.available_balance
    let max_position_with_leverage := available_margin * cfg.max_leverage
    let max_allowed_value :=
      min max_position_value max_position_with_leverage
    max_allowed_value / current_price

end RiskManager

/-! ## Strategy Contract & Execution Pipeline
(src/strategies/base_strategy.py, src/strategies/simple_ma_strategy.py) -/

namespace Strategies

/-- src/market_data.py MarketData (the fields the pipeline reads; spread
and timestamp omitted, unused by any claim). -/
structure MarketData where
  mid_price : ℚ
  bid : ℚ
  ask : ℚ
  deriving DecidableEq, Repr

/-- A strategy signal dict; each Option field models presence of the key
(the code reads them with .get and per-key defaults). -/
structure Signal where
  side : Option String
  order_type : Option String
  reduce_only : Option Bool
  post_only : Option Bool
  confidence : Option ℚ
  deriving DecidableEq, Repr

/-- One entry of BaseStrategy.positions as built by update_positions. -/
structure PosInfo where
  size : ℚ
  entry_price : ℚ
  unrealized_pnl : ℚ
  margin_used : ℚ
  deriving DecidableEq, Repr

/-- Lookup in the strategy's positions dict. -/
def lookupPos (positions : List (String × PosInfo)) (coin : String) :
    Option PosInfo :=
  (positions.find? (fun p => p.1 = coin)).map (fun p => p.2)

/-- The config fields SimpleMAStrategy.calculate_position_size reads. -/
structure SMAConfig where
  position_size_usd : ℚ
  max_positions : ℕ
  deriving DecidableEq, Repr

/-- src/strategies/simple_ma_strategy.py
SimpleMAStrategy.calculate_position_size (lines 69-102).  md is the market
snapshot for the coin; fetchUS models the direct info.user_state call
(.error = the call raised; every raising path is caught by the method's
try/except and yields 0, including the TypeError of a membership test on a
None payload and the KeyError of a missing accountValue, and the
ZeroDivisionError of a zero mid price). -/
def calculate_position_size (cfg : SMAConfig)
    (positions : List (String × PosInfo)) (coin : String) (signal : Signal)
    (md : Option MarketData)
    (fetchUS : Except PyErr (Option RiskManager.UserState)) : ℚ :=
  if cfg.max_positions ≤ positions.length ∧
      positions.any (fun p => p.1 = coin) = false then 0
  else
    match md with
    | none => 0
    | some m =>
      let confidence := signal.confidence.getD (1/2)
      let base_size_usd := cfg.position_size_usd * confidence
      if m.mid_price = 0 then 0
      else
        match fetchUS with
        | .error _ => 0
        | .ok none => 0
        | .ok (some u) =>
          match u.marginSummary with
          | none => pyRound (base_size_usd / m.mid_price) 4
          | some ms =>
            match ms.accountValue with
            | none => 0
            | some account_value =>
              let max_size_usd := account_value * (1/10)
              if max_size_usd < base_size_usd then
                pyRound (max_size_usd / m.mid_price) 4
              else
                pyRound (base_size_usd / m.mid_price) 4

/-- src/strategies/base_strategy.py BaseStrategy.execute_signal (lines
30-74), projected to the size it submits: none when no order is placed
(falsy side, non-positive size, or no market data), otherwise the
calculated size rounded to the coin's size decimals.  The method's
try/except absorbs every raising step, so it never propagates an
exception. -/
def execute_signal_size (szDec : ℕ) (signal : Signal) (position_size : ℚ)
    (md : Option MarketData) : Option ℚ :=
  match signal.side with
  | none => none
  | some _ =>
    if position_size ≤ 0 then none
    else
      let rounded := pyRound position_size szDec
      match md with
      | none => none
      | some _ => some rounded

/-- The config fields BaseStrategy.should_close_position reads (.get with
defaults 10 and 5). -/
structure StratConfig where
  take_profit_percent : Option ℚ
  stop_loss_percent : Option ℚ
  deriving DecidableEq, Repr

/-- src/strategies/base_strategy.py BaseStrategy.should_close_position
(lines 95-115).  The PnL-percentage division is NOT wrapped in any
try/except in the source, so a position with margin_used = 0 raises
ZeroDivisionError out of the method. -/
def should_close_position (scfg : StratConfig)
    (positions : List (String × PosInfo)) (md : String → Option MarketData)
    (coin : String) : Except PyErr Bool :=
  match lookupPos positions coin with
  | none => .ok false
  | some pos =>
    match md coin with
    | none => .ok false
    | some _ => do
      let ratio ← pyDiv pos.unrealized_pnl pos.margin_used
      let pnl_percent := ratio * 100
      if scfg.take_profit_percent.getD 10 ≤ pnl_percent then .ok true
      else if pnl_percent ≤ -(scfg.stop_loss_percent.getD 5) then .ok true
      else .ok false

/-- src/strategies/base_strategy.py BaseStrategy.close_position (lines
117-137), projected to the reduce-only market order it submits (side and
rounded size); get_sz_decimals and create_market_order absorb their own
failures, so this step never raises. -/
def close_position (positions : List (String × PosInfo))
    (szDec : String → ℕ) (coin : String) :
    Option (OrderManager.OrderSide × ℚ) :=
  match lookupPos positions coin with
  | none => none
  | some pos =>
    let size := |pos.size|
    let side : OrderManager.OrderSide :=
      if 0 < pos.size then .sell else .buy
    some (side, pyRound size (szDec coin))

/-- What happened to one symbol in a tick. -/
inductive CoinOutcome where
  | closed (side : OrderManager.OrderSide) (size : ℚ)
  | noClose
  | executed (size : ℚ)
  | noAction
  deriving DecidableEq, Repr

/-- The fixed per-tick environment of BaseStrategy.run: the refreshed
positions cache, per-coin market data and size decimals, the strategy
config and the user-state fetch seen by sizing. -/
structure RunEnv where
  scfg : StratConfig
  positions : List (String × PosInfo)
  md : String → Option MarketData
  szDec : String → ℕ
  smaCfg : SMAConfig
  fetchUS : Except PyErr (Option RiskManager.UserState)

/-- The body of BaseStrategy.run's per-coin loop (lines 142-148): evaluate
should_close_position (whose exceptions propagate — there is no try/except
in run), close on true, otherwise generate a signal (gen; every concrete
strategy catches its own exceptions and returns None) and execute it
(execute_signal absorbs its own exceptions). -/
def process_coin (env : RunEnv) (gen : String → Option Signal)
    (coin : String) : Except PyErr CoinOutcome :=
  match should_close_position env.scfg env.positions env.md coin with
  | .error e => .error e
  | .ok true =>
    match close_position env.positions env.szDec coin with
    | some (side, size) => .ok (.closed side size)
    | none => .ok .noClose
  | .ok false =>
    match gen coin with
    | none => .ok .noAction
    | some sig =>
      match execute_signal_size (env.szDec coin) sig
          (calculate_position_size env.smaCfg env.positions coin sig
            (env.md coin) env.fetchUS) (env.md coin) with
      | some sz => .ok (.executed sz)
      | none => .ok .noAction

/-- The symbol loop of BaseStrategy.run: processes coins in order,
accumulating each completed symbol's outcome; an uncaught exception stops
the loop there and the remaining symbols are never processed. -/
def run_strategy_go (env : RunEnv) (gen : String → Option Signal) :
    List String → List (String × CoinOutcome) →
    List (String × CoinOutcome) × Option PyErr
  | [], acc => (acc.reverse, none)
  | c :: cs, acc =>
    match process_coin env gen c with
    | .error e => (acc.reverse, some e)
    | .ok out => run_strategy_go env gen cs ((c, out) :: acc)

/-- src/strategies/base_strategy.py BaseStrategy.run (lines 139-148) over
a fixed environment: returns the per-symbol outcomes of the symbols that
completed, and the exception that aborted the tick, if any. -/
def run_strategy (env : RunEnv) (gen : String → Option Signal)
    (coins : List String) : List (String × CoinOutcome) × Option PyErr :=
  run_strategy_go env gen coins []

end Strategies

/-! ## Rate-Limited Gateway (src/rate_limiter.py) -/

namespace RateLimiter

/-- The RateLimiter constructor parameters relevant to backoff. -/
structure RLConfig where
  backoff_factor : ℚ
  max_backoff : ℚ
  deriving DecidableEq, Repr

/-- The backoff-related mutable state of RateLimiter. -/
structure RLState where
  consecutive_429s : ℕ
  current_backoff : ℚ
  deriving DecidableEq, Repr

/-- The state the RateLimiter constructor sets up. -/
def startState : RLState := { consecutive_429s := 0, current_backoff := 0 }

/-- src/rate_limiter.py RateLimiter.on_429_error (lines 57-65): increment
the consecutive-429 counter, set backoff to
min(backoff_factor ** counter, max_backoff). -/
def on_429_error (cfg : RLConfig) (st : RLState) : RLState :=
  let n := st.consecutive_429s + 1
  { consecutive_429s := n
    current_backoff := min (cfg.backoff_factor ^ n) cfg.max_backoff }

/-- src/rate_limiter.py RateLimiter.on_success (lines 67-73): reset
counter and backoff to zero (guarded: a no-op when the counter is already
zero). -/
def on_success (st : RLState) : RLState :=
  if 0 < st.consecutive_429s then
    { consecutive_429s := 0, current_backoff := 0 }
  else st

/-- The test `"429" in error_str or "rate limit" in error_str.lower()` of
APICallWrapper.call. -/
def is_rate_limit_error (msg : String) : Bool :=
  decide ("429".toList <:+: msg.toList) ||
  decide ("rate limit".toList <:+: msg.toList.map Char.toLower)

/-- src/rate_limiter.py APICallWrapper.call (lines 82-97), after the
pacing wait: outcome is what the wrapped operation did (.ok result or
.error with the exception text).  Returns the limiter state afterwards,
the backoff duration slept before re-raising (0 when none), and the
call's result (errors are always re-raised). -/
def api_call {α : Type} (cfg : RLConfig) (st : RLState)
    (outcome : Except String α) : RLState × ℚ × Except String α :=
  match outcome with
  | .ok v => (on_success st, 0, .ok v)
  | .error e =>
    if is_rate_limit_error e then
      let st' := on_429_error cfg st
      (st', st'.current_backoff, .error e)
    else (st, 0, .error e)

end RateLimiter

/-! ## Control Loop (src/bot.py) -/

namespace HyperliquidBot

/-- The externally visible steps one _trading_loop tick can take. -/
inductive BotAction where
  | cancelOrder (oid : ℤ) (coin : String)
  | reconcile
  | strategyRun
  | logRiskSummary
  deriving DecidableEq, Repr

/-- One entry of the venue's open-order list (the fields
cancel_all_orders reads). -/
structure OpenOrder where
  oid : ℤ
  coin : String
  deriving DecidableEq, Repr

/-- src/order_manager.py OrderManager.cancel_all_orders (lines 142-158) as
the cancel requests it issues: one per venue-listed open order matching
the optional coin filter. -/
def cancel_all_actions (openOrders : List OpenOrder)
    (coin : Option String) : List BotAction :=
  (openOrders.filter
      (fun o => decide (coin = none ∨ coin = some o.coin))).map
    (fun o => .cancelOrder o.oid o.coin)

/-- src/bot.py HyperliquidBot._trading_loop (lines 254-267) as its action
trace: on a failed risk gate it cancels all venue-open orders and returns;
otherwise it reconciles the ledger, runs the strategy, and (on a
minute-aligned tick) logs the risk summary. -/
def trading_loop (checks : RiskManager.RiskChecks)
    (openOrders : List OpenOrder) (minuteAligned : Bool) : List BotAction :=
  if checks.all_checks_passed = false then cancel_all_actions openOrders none
  else
    [.reconcile, .strategyRun] ++
      (if minuteAligned then [.logRiskSummary] else [])

end HyperliquidBot

/-! ## Theorems -/

namespace OrderManager

/-- An association list with no entry for key k looks up to none. -/
theorem dictLookup_eq_none_of_not_any (m : ActiveOrders) (k : ℤ)
    (h : m.any (fun p => p.1 = k) = false) : dictLookup m k = none := by
  induction m with
  | nil => rfl
  | cons p t ih =>
    simp only [List.any_cons, Bool.or_eq_false_iff] at h
    simp only [dictLookup, List.find?]
    rw [decide_eq_false (by simpa using h.1)]
    exact ih h.2

/-- Overwriting every entry keyed k yields v at k, provided some entry has
key k. -/
theorem dictLookup_map_update (m : ActiveOrders) (k : ℤ) (v : Order)
    (h : m.any (fun p => p.1 = k) = true) :
    dictLookup (m.map (fun p => if p.1 = k then (k, v) else p)) k = some v := by
  induction m with
  | nil => simp at h
  | cons p t ih =>
    simp only [List.any_cons, Bool.or_eq_true] at h
    by_cases hp : p.1 = k
    · simp [dictLookup, List.find?, hp]
    · simp only [List.map_cons, if_neg hp, dictLookup, List.find?]
      rw [decide_eq_false hp]
      exact ih (h.resolve_left (by simpa using hp))

/-- Inserting (k, v) into the active-order dict makes v the value at k. -/
theorem dictLookup_dictInsert (m : ActiveOrders) (k : ℤ) (v : Order) :
    dictLookup (dictInsert m k v) k = some v := by
  unfold dictInsert
  by_cases h : m.any (fun p => p.1 = k) = true
  · rw [if_pos h]; exact dictLookup_map_update m k v h
  · rw [if_neg h]
    have hn : m.any (fun p => p.1 = k) = false := by
      revert h; cases m.any (fun p => p.1 = k) <;> simp
    unfold dictLookup
    rw [List.find?_append]
    rw [show m.find? (fun p => p.1 = k) = none from by
      have := dictLookup_eq_none_of_not_any m k hn
      unfold dictLookup at this
      cases hf : m.find? (fun p => p.1 = k) <;> simp [hf] at this ⊢]
    simp [List.find?]

end OrderManager

/-- C1: through OrderManager._place_order, a venue reply with status ok
whose first status entry carries oid i yields a returned order with id i
that is in the active set immediately afterwards; every failing reply
(raised exception, falsy or non-ok response, missing oid) yields None, the
locally built order is marked Rejected, and the active set is unchanged. -/
theorem OrderManager.place_order_spec (active : OrderManager.ActiveOrders)
    (order : OrderManager.Order)
    (reply : Except PyErr (Option OrderManager.PlaceResponse)) :
    (∀ i : ℤ, OrderManager.placeOid reply = some i →
      ∃ o : OrderManager.Order,
        (OrderManager.place_order active order reply).1 = some o ∧
        o.id = some i ∧
        OrderManager.dictLookup
          (OrderManager.place_order active order reply).2.1 i = some o) ∧
    (OrderManager.placeOid reply = none →
      (OrderManager.place_order active order reply).1 = none ∧
      (OrderManager.place_order active order reply).2.2.status =
        OrderManager.OrderStatus.rejected ∧
      (OrderManager.place_order active order reply).2.1 = active) := by
  constructor
  · intro i hi
    match reply with
    | .error e => simp [OrderManager.placeOid] at hi
    | .ok none => simp [OrderManager.placeOid] at hi
    | .ok (some r) =>
      by_cases hs : r.status = some "ok"
      · match hst : r.statuses with
        | some (s :: rest) =>
          match ho : s.oid with
          | some j =>
            have hij : j = i := by
              simp [OrderManager.placeOid, hs, hst, ho] at hi
              exact hi
            subst hij
            refine ⟨{ order with id := some j }, ?_, rfl, ?_⟩
            · simp [OrderManager.place_order, hs, hst, ho]
            · simp only [OrderManager.place_order, hs, hst, ho, if_pos]
              exact OrderManager.dictLookup_dictInsert active j _
          | none => simp [OrderManager.placeOid, hs, hst, ho] at hi
        | some [] => simp [OrderManager.placeOid, hs, hst] at hi
        | none => simp [OrderManager.placeOid, hs, hst] at hi
      · simp [OrderManager.placeOid, hs] at hi
  · intro hn
    match reply with
    | .error e => exact ⟨rfl, rfl, rfl⟩
    | .ok none => exact ⟨rfl, rfl, rfl⟩
    | .ok (some r) =>
      by_cases hs : r.status = some "ok"
      · match hst : r.statuses with
        | some (s :: rest) =>
          match ho : s.oid with
          | some j => simp [OrderManager.placeOid, hs, hst, ho] at hn
          | none => simp [OrderManager.place_order, hs, hst, ho]
        | some [] => simp [OrderManager.place_order, hs, hst]
        | none => simp [OrderManager.place_order, hs, hst]
      · simp [OrderManager.place_order, hs]

/-- Witness for C1 at a concrete acknowledged submission. -/
theorem OrderManager.place_order_spec_witness :
    ∃ o : OrderManager.Order,
      (OrderManager.place_order []
        { id := none, coin := "BTC", side := .buy, size := 1, price := 100,
          order_type := .limit .gtc, reduce_only := false,
          status := .pending, filled_size := 0 }
        (Except.ok (some { status := some "ok",
                           statuses := some [{ oid := some 7 }] }))).1 = some o ∧
      o.id = some 7 ∧
      OrderManager.dictLookup
        (OrderManager.place_order []
          { id := none, coin := "BTC", side := .buy, size := 1, price := 100,
            order_type := .limit .gtc, reduce_only := false,
            status := .pending, filled_size := 0 }
          (Except.ok (some { status := some "ok",
                             statuses := some [{ oid := some 7 }] }))).2.1 7 =
        some o :=
  (OrderManager.place_order_spec []
    { id := none, coin := "BTC", side := .buy, size := 1, price := 100,
      order_type := .limit .gtc, reduce_only := false,
      status := .pending, filled_size := 0 }
    (Except.ok (some { status := some "ok",
                       statuses := some [{ oid := some 7 }] }))).1 7 (by decide)

namespace RiskManager

/-- When the payload carries a marginSummary, get_current_metrics returns
the metrics snapshot computed from it. -/
theorem get_current_metrics_fst_ok (st : RMState) (today : ℤ)
    (u : UserState) (ms : MarginSummary) (h : u.marginSummary = some ms) :
    (get_current_metrics st today (.ok (some u))).1 = some
      { total_balance := ms.accountValue.getD 0
        available_balance := ms.accountValue.getD 0 - ms.totalMarginUsed.getD 0
        margin_used := ms.totalMarginUsed.getD 0
        total_position_value := ms.totalNtlPos.getD 0
        unrealized_pnl := 0
        realized_pnl := 0
        leverage :=
          if 0 < ms.accountValue.getD 0 then
            ms.totalNtlPos.getD 0 / ms.accountValue.getD 0
          else 0
        margin_ratio :=
          if 0 < ms.accountValue.getD 0 then
            ms.totalMarginUsed.getD 0 / ms.accountValue.getD 0
          else 0
        num_positions := (u.assetPositions.getD []).length } := by
  simp [get_current_metrics, h]

/-- The closed form of calculate_position_size_limit on an available
margin summary. -/
theorem calc_limit_eq (cfg : RMConfig) (st : RMState) (today : ℤ)
    (u : UserState) (ms : MarginSummary) (h : u.marginSummary = some ms)
    (price : ℚ) :
    calculate_position_size_limit cfg st today (.ok (some u)) price =
      min (ms.accountValue.getD 0 * cfg.max_position_size_pct)
        ((ms.accountValue.getD 0 - ms.totalMarginUsed.getD 0) *
          cfg.max_leverage) / price := by
  unfold calculate_position_size_limit
  rw [get_current_metrics_fst_ok st today u ms h]

end RiskManager

/-- C2: whenever get_current_metrics yields None — the gateway call raised,
the payload was falsy, or it lacked a marginSummary — check_risk_limits
returns the fail-closed dict: all_checks_passed is False and the reason is
"No metrics available", regardless of configuration or state. -/
theorem RiskManager.check_risk_limits_fail_closed (cfg : RiskManager.RMConfig)
    (st : RiskManager.RMState) (today : ℤ)
    (fetch : Except PyErr (Option RiskManager.UserState)) :
    ((∃ e, fetch = .error e) ∨ fetch = .ok none ∨
        (∃ u, fetch = .ok (some u) ∧ u.marginSummary = none) →
      (RiskManager.get_current_metrics st today fetch).1 = none) ∧
    ((RiskManager.get_current_metrics st today fetch).1 = none →
      (RiskManager.check_risk_limits cfg st today fetch).1 =
        .ok RiskManager.noMetricsChecks ∧
      RiskManager.noMetricsChecks.all_checks_passed = false ∧
      RiskManager.noMetricsChecks.reason = some "No metrics available") := by
  constructor
  · rintro (⟨e, rfl⟩ | rfl | ⟨u, rfl, hms⟩)
    · rfl
    · rfl
    · simp [RiskManager.get_current_metrics, hms]
  · intro h
    rcases hg : RiskManager.get_current_metrics st today fetch with ⟨mo, st'⟩
    have hmo : mo = none := by rw [hg] at h; exact h
    subst hmo
    refine ⟨?_, rfl, rfl⟩
    simp [RiskManager.check_risk_limits, hg]

/-- Witness for C2: a falsy user-state payload fails the check closed. -/
theorem RiskManager.check_risk_limits_fail_closed_witness :
    (RiskManager.check_risk_limits ⟨3, 1/5, 1/10, 1/20⟩
        ⟨none, none, 0, []⟩ 0 (.ok none)).1 =
      .ok RiskManager.noMetricsChecks ∧
    RiskManager.noMetricsChecks.all_checks_passed = false ∧
    RiskManager.noMetricsChecks.reason = some "No metrics available" :=
  (RiskManager.check_risk_limits_fail_closed ⟨3, 1/5, 1/10, 1/20⟩
    ⟨none, none, 0, []⟩ 0 (.ok none)).2 rfl

/-- C4: with metrics available, calculate_position_size_limit equals
min(account value * max_position_size_pct,
(account value - margin used) * max_leverage) / price; at account value
1000, margin used 0, max_leverage 3, max_position_size_pct 0.2 and price
50000 it returns 0.004 (= 1/250); with metrics unavailable it returns 0. -/
theorem RiskManager.calculate_position_size_limit_spec :
    (∀ (cfg : RiskManager.RMConfig) (st : RiskManager.RMState) (today : ℤ)
        (u : RiskManager.UserState) (ms : RiskManager.MarginSummary)
        (av mu : ℚ) (price : ℚ),
      u.marginSummary = some ms → ms.accountValue = some av →
      ms.totalMarginUsed = some mu →
      RiskManager.calculate_position_size_limit cfg st today
          (.ok (some u)) price =
        min (av * cfg.max_position_size_pct) ((av - mu) * cfg.max_leverage) /
          price) ∧
    (∀ (cfg : RiskManager.RMConfig) (st : RiskManager.RMState) (today : ℤ)
        (fetch : Except PyErr (Option RiskManager.UserState)) (price : ℚ),
      (RiskManager.get_current_metrics st today fetch).1 = none →
      RiskManager.calculate_position_size_limit cfg st today fetch price
        = 0) ∧
    RiskManager.calculate_position_size_limit ⟨3, 1/5, 1/10, 1/20⟩
      ⟨none, none, 0, []⟩ 0
      (.ok (some ⟨some ⟨some 1000, some 0, some 0⟩, some []⟩)) 50000
      = 1/250 := by
  refine ⟨?_, ?_, by
    rw [RiskManager.calc_limit_eq _ _ _ _ _ rfl _]
    norm_num [min_def]⟩
  · intro cfg st today u ms av mu price hms hav hmu
    rw [RiskManager.calc_limit_eq cfg st today u ms hms price, hav, hmu]
    rfl
  · intro cfg st today fetch price h
    unfold RiskManager.calculate_position_size_limit
    rw [h]

/-- Witness for C4 on a concrete margin summary: account value 500, margin
used 100, max_position_size_pct 0.2, max_leverage 3, price 10. -/
theorem RiskManager.calculate_position_size_limit_spec_witness :
    RiskManager.calculate_position_size_limit ⟨3, 1/5, 1/10, 1/20⟩
        ⟨none, none, 0, []⟩ 0
        (.ok (some ⟨some ⟨some 500, some 100, some 0⟩, some []⟩)) 10 =
      min (500 * (1/5)) ((500 - 100) * 3) / 10 :=
  RiskManager.calculate_position_size_limit_spec.1 ⟨3, 1/5, 1/10, 1/20⟩
    ⟨none, none, 0, []⟩ 0 ⟨some ⟨some 500, some 100, some 0⟩, some []⟩
    ⟨some 500, some 100, some 0⟩ 500 100 10 rfl rfl rfl

/-- C9 counterexample: with account value 100 and margin used 150 (so a
negative available balance), lowering max_leverage from 2 to 1 raises the
limit from -100 to -50, so calculate_position_size_limit is not
monotonically non-increasing as max_leverage is lowered, even with price
positive and metrics available. -/
theorem RiskManager.position_size_limit_monotone_counterexample :
    RiskManager.calculate_position_size_limit ⟨1, 1/5, 1/10, 1/20⟩
        ⟨none, none, 0, []⟩ 0
        (.ok (some ⟨some ⟨some 100, some 150, some 0⟩, some []⟩)) 1
      = -50 ∧
    RiskManager.calculate_position_size_limit ⟨2, 1/5, 1/10, 1/20⟩
        ⟨none, none, 0, []⟩ 0
        (.ok (some ⟨some ⟨some 100, some 150, some 0⟩, some []⟩)) 1
      = -100 ∧
    ¬ ((-50 : ℚ) ≤ -100) := by
  refine ⟨?_, ?_, by norm_num⟩ <;>
    (rw [RiskManager.calc_limit_eq _ _ _ _ _ rfl _]; norm_num [min_def])

/-- C9 amended: with price positive, a nonnegative available balance
(margin used at most account value) and nonnegative configuration
parameters, calculate_position_size_limit is monotone non-decreasing in
max_leverage (so lowering it never raises the limit) and monotone
non-decreasing in account value holding margin used and price fixed. -/
theorem RiskManager.position_size_limit_monotone_amended
    (st : RiskManager.RMState) (today : ℤ)
    (pct dd dl lev lev' av av' mu price : ℚ)
    (hprice : 0 < price) :
    (lev ≤ lev' → 0 ≤ av - mu →
      RiskManager.calculate_position_size_limit ⟨lev, pct, dd, dl⟩ st today
          (.ok (some ⟨some ⟨some av, some mu, some 0⟩, some []⟩)) price ≤
        RiskManager.calculate_position_size_limit ⟨lev', pct, dd, dl⟩ st
          today (.ok (some ⟨some ⟨some av, some mu, some 0⟩, some []⟩))
          price) ∧
    (av ≤ av' → 0 ≤ pct → 0 ≤ lev →
      RiskManager.calculate_position_size_limit ⟨lev, pct, dd, dl⟩ st today
          (.ok (some ⟨some ⟨some av, some mu, some 0⟩, some []⟩)) price ≤
        RiskManager.calculate_position_size_limit ⟨lev, pct, dd, dl⟩ st
          today (.ok (some ⟨some ⟨some av', some mu, some 0⟩, some []⟩))
          price) := by
  constructor
  · intro hlev hav
    rw [RiskManager.calc_limit_eq _ st today _ _ rfl price,
      RiskManager.calc_limit_eq _ st today _ _ rfl price]
    apply div_le_div_of_nonneg_right ?_ hprice.le
    exact min_le_min le_rfl (mul_le_mul_of_nonneg_left hlev hav)
  · intro hav hpct hlev
    rw [RiskManager.calc_limit_eq _ st today _ _ rfl price,
      RiskManager.calc_limit_eq _ st today _ _ rfl price]
    apply div_le_div_of_nonneg_right ?_ hprice.le
    exact min_le_min (mul_le_mul_of_nonneg_right hav hpct)
      (mul_le_mul_of_nonneg_right (sub_le_sub_right hav mu) hlev)

/-- Witness for the amended C9 at max_leverage 1 vs 2, account value 100,
margin used 40, price 1. -/
theorem RiskManager.position_size_limit_monotone_amended_witness :
    RiskManager.calculate_position_size_limit ⟨1, 1/5, 1/10, 1/20⟩
        ⟨none, none, 0, []⟩ 0
        (.ok (some ⟨some ⟨some 100, some 40, some 0⟩, some []⟩)) 1 ≤
      RiskManager.calculate_position_size_limit ⟨2, 1/5, 1/10, 1/20⟩
        ⟨none, none, 0, []⟩ 0
        (.ok (some ⟨some ⟨some 100, some 40, some 0⟩, some []⟩)) 1 :=
  (RiskManager.position_size_limit_monotone_amended ⟨none, none, 0, []⟩ 0
    (1/5) (1/10) (1/20) 1 2 100 100 40 1 (by norm_num)).1
    (by norm_num) (by norm_num)

/-- C10: the drawdown and daily-loss checks test their baseline for
falsiness before dividing: a missing (None) or zero baseline yields True
with no division, the checks can never raise a division error for any
metrics, and a first metrics snapshot with account value 0 seeds the
starting balance as 0 (the falsy-zero case). -/
theorem RiskManager.baseline_falsy_checks_safe :
    (∀ (cfg : RiskManager.RMConfig) (st : RiskManager.RMState)
        (m : RiskManager.RiskMetrics),
      st.starting_balance = none ∨ st.starting_balance = some 0 →
      RiskManager.check_drawdown cfg st m = .ok true) ∧
    (∀ (cfg : RiskManager.RMConfig) (st : RiskManager.RMState)
        (m : RiskManager.RiskMetrics),
      st.daily_starting_balance = none ∨
        st.daily_starting_balance = some 0 →
      RiskManager.check_daily_loss cfg st m = .ok true) ∧
    (∀ (cfg : RiskManager.RMConfig) (st : RiskManager.RMState)
        (m : RiskManager.RiskMetrics) (e : PyErr),
      RiskManager.check_drawdown cfg st m ≠ .error e) ∧
    (∀ (cfg : RiskManager.RMConfig) (st : RiskManager.RMState)
        (m : RiskManager.RiskMetrics) (e : PyErr),
      RiskManager.check_daily_loss cfg st m ≠ .error e) ∧
    (∀ (st : RiskManager.RMState) (today : ℤ)
        (u : RiskManager.UserState) (ms : RiskManager.MarginSummary),
      u.marginSummary = some ms → ms.accountValue = some 0 →
      st.starting_balance = none →
      ((RiskManager.get_current_metrics st today
          (.ok (some u))).2).starting_balance = some 0) := by
  refine ⟨?_, ?_, ?_, ?_, ?_⟩
  · rintro cfg st m (h | h) <;> simp [RiskManager.check_drawdown, h]
  · rintro cfg st m (h | h) <;> simp [RiskManager.check_daily_loss, h]
  · intro cfg st m e
    cases hsb : st.starting_balance with
    | none => simp [RiskManager.check_drawdown, hsb]
    | some sb =>
      by_cases hz : sb = 0 <;>
        simp [RiskManager.check_drawdown, hsb, hz, pyDiv, Except.bind,
          Bind.bind]
  · intro cfg st m e
    cases hdb : st.daily_starting_balance with
    | none => simp [RiskManager.check_daily_loss, hdb]
    | some db =>
      by_cases hz : db = 0 <;>
        simp [RiskManager.check_daily_loss, hdb, hz, pyDiv, Except.bind,
          Bind.bind]
  · intro st today u ms hms hav hsb
    by_cases hlt : st.last_reset_date < today <;>
      simp [RiskManager.get_current_metrics, hms, hsb, hav, hlt]

/-- Witness for C10 with a zero seeded starting balance. -/
theorem RiskManager.baseline_falsy_checks_safe_witness :
    RiskManager.check_drawdown ⟨3, 1/5, 1/10, 1/20⟩ ⟨some 0, some 0, 0, []⟩
      ⟨1000, 1000, 0, 0, 0, 0, 0, 0, 0⟩ = .ok true :=
  RiskManager.baseline_falsy_checks_safe.1 ⟨3, 1/5, 1/10, 1/20⟩
    ⟨some 0, some 0, 0, []⟩ ⟨1000, 1000, 0, 0, 0, 0, 0, 0, 0⟩ (Or.inr rfl)

/-- C6: update_order_status against a fixed venue state is idempotent —
the second run leaves the active set unchanged and removes nothing — and
the first run keeps exactly the tracked orders whose id the venue still
lists open, while each removed order is marked Filled with the matching
fill record's size when one exists and Cancelled otherwise. -/
theorem OrderManager.update_order_status_idempotent
    (active : OrderManager.ActiveOrders) (openIds : List ℤ)
    (fills : List OrderManager.Fill) :
    (OrderManager.update_order_status
        (OrderManager.update_order_status active openIds fills).1 openIds
        fills).1 =
      (OrderManager.update_order_status active openIds fills).1 ∧
    (OrderManager.update_order_status
        (OrderManager.update_order_status active openIds fills).1 openIds
        fills).2 = [] ∧
    (∀ p ∈ (OrderManager.update_order_status active openIds fills).1,
      openIds.contains p.1 = true) ∧
    (∀ q ∈ (OrderManager.update_order_status active openIds fills).2,
      openIds.contains q.1 = false ∧
      ((∃ f, fills.find? (fun f => f.oid = q.1) = some f ∧
          q.2.status = OrderManager.OrderStatus.filled ∧
          q.2.filled_size = f.sz) ∨
        (fills.find? (fun f => f.oid = q.1) = none ∧
          q.2.status = OrderManager.OrderStatus.cancelled))) := by
  refine ⟨?_, ?_, ?_, ?_⟩
  · simp [OrderManager.update_order_status, List.filter_filter]
  · simp [OrderManager.update_order_status, List.filter_filter]
  · intro p hp
    simp only [OrderManager.update_order_status, List.mem_filter] at hp
    exact hp.2
  · intro q hq
    simp only [OrderManager.update_order_status, List.mem_map,
      List.mem_filter] at hq
    obtain ⟨p, ⟨hpmem, hpopen⟩, hpq⟩ := hq
    subst hpq
    refine ⟨by simpa using hpopen, ?_⟩
    cases hf : fills.find? (fun f => f.oid = p.1) with
    | some f =>
      exact Or.inl ⟨f, rfl, by simp [OrderManager.reconcile_order, hf]⟩
    | none =>
      exact Or.inr ⟨rfl, by simp [OrderManager.reconcile_order, hf]⟩

/-- Witness for C6: a surviving tracked order's id is venue-open. -/
theorem OrderManager.update_order_status_idempotent_witness :
    ([1] : List ℤ).contains
      (((1 : ℤ),
        (⟨some 1, "BTC", .buy, 1, 10, .market, false, .pending, 0⟩ :
          OrderManager.Order))).1 = true :=
  (OrderManager.update_order_status_idempotent
    [(1, ⟨some 1, "BTC", .buy, 1, 10, .market, false, .pending, 0⟩),
     (2, ⟨some 2, "ETH", .sell, 2, 20, .market, false, .pending, 0⟩)]
    [1] [⟨2, 5⟩]).2.2.1
    (1, ⟨some 1, "BTC", .buy, 1, 10, .market, false, .pending, 0⟩)
    (List.mem_cons_self _ _)

/-- C7: a trading-loop tick whose risk gate reports all_checks_passed =
False issues exactly the cancel-all requests and nothing else: every
action is an order cancellation, and neither reconciliation nor the
strategy pipeline runs, so no new order can be submitted and no position
is closed in that tick. -/
theorem HyperliquidBot.trading_loop_risk_gate
    (checks : RiskManager.RiskChecks)
    (openOrders : List HyperliquidBot.OpenOrder) (minuteAligned : Bool)
    (h : checks.all_checks_passed = false) :
    HyperliquidBot.trading_loop checks openOrders minuteAligned =
      HyperliquidBot.cancel_all_actions openOrders none ∧
    (∀ a ∈ HyperliquidBot.trading_loop checks openOrders minuteAligned,
      ∃ oid coin, a = HyperliquidBot.BotAction.cancelOrder oid coin) ∧
    HyperliquidBot.BotAction.reconcile ∉
      HyperliquidBot.trading_loop checks openOrders minuteAligned ∧
    HyperliquidBot.BotAction.strategyRun ∉
      HyperliquidBot.trading_loop checks openOrders minuteAligned := by
  have htl : HyperliquidBot.trading_loop checks openOrders minuteAligned =
      HyperliquidBot.cancel_all_actions openOrders none := by
    simp [HyperliquidBot.trading_loop, h]
  have hcancel : ∀ a ∈ HyperliquidBot.trading_loop checks openOrders
      minuteAligned,
      ∃ oid coin, a = HyperliquidBot.BotAction.cancelOrder oid coin := by
    intro a ha
    rw [htl] at ha
    simp only [HyperliquidBot.cancel_all_actions, List.mem_map] at ha
    obtain ⟨o, _, rfl⟩ := ha
    exact ⟨o.oid, o.coin, rfl⟩
  refine ⟨htl, hcancel, ?_, ?_⟩
  · intro hmem
    obtain ⟨oid, coin, hcontr⟩ := hcancel _ hmem
    cases hcontr
  · intro hmem
    obtain ⟨oid, coin, hcontr⟩ := hcancel _ hmem
    cases hcontr

/-- Witness for C7 at a concrete failed gate with one open order. -/
theorem HyperliquidBot.trading_loop_risk_gate_witness :
    HyperliquidBot.trading_loop ⟨none, none, none, none, false, some "x"⟩
        [⟨5, "BTC"⟩] false =
      HyperliquidBot.cancel_all_actions [⟨5, "BTC"⟩] none :=
  (HyperliquidBot.trading_loop_risk_gate
    ⟨none, none, none, none, false, some "x"⟩ [⟨5, "BTC"⟩] false rfl).1

/-- C8: through APICallWrapper.call, a rate-limit error (text containing
429, or a rate-limit message) increments the consecutive-failure counter,
sets the backoff to min(backoff_factor ^ counter, max_backoff), sleeps
exactly that backoff before re-raising the error; a successful call resets
counter and backoff to zero and returns the result.  The states reachable
from the constructor state satisfy the stated invariant (zero counter
implies zero backoff), which the call also preserves. -/
theorem RateLimiter.api_call_spec {α : Type} (cfg : RateLimiter.RLConfig)
    (st : RateLimiter.RLState) (outcome : Except String α)
    (hInv : st.consecutive_429s = 0 → st.current_backoff = 0) :
    (∀ e, outcome = .error e → RateLimiter.is_rate_limit_error e = true →
      (RateLimiter.api_call cfg st outcome).1.consecutive_429s =
        st.consecutive_429s + 1 ∧
      (RateLimiter.api_call cfg st outcome).1.current_backoff =
        min (cfg.backoff_factor ^ (st.consecutive_429s + 1))
          cfg.max_backoff ∧
      (RateLimiter.api_call cfg st outcome).2.1 =
        (RateLimiter.api_call cfg st outcome).1.current_backoff ∧
      (RateLimiter.api_call cfg st outcome).2.2 = .error e) ∧
    (∀ v, outcome = .ok v →
      (RateLimiter.api_call cfg st outcome).1.consecutive_429s = 0 ∧
      (RateLimiter.api_call cfg st outcome).1.current_backoff = 0 ∧
      (RateLimiter.api_call cfg st outcome).2.2 = .ok v) ∧
    ((RateLimiter.api_call cfg st outcome).1.consecutive_429s = 0 →
      (RateLimiter.api_call cfg st outcome).1.current_backoff = 0) ∧
    RateLimiter.startState.consecutive_429s = 0 ∧
    RateLimiter.startState.current_backoff = 0 := by
  refine ⟨?_, ?_, ?_, rfl, rfl⟩
  · rintro e rfl hrl
    simp [RateLimiter.api_call, hrl, RateLimiter.on_429_error]
  · rintro v rfl
    by_cases hpos : 0 < st.consecutive_429s
    · simp [RateLimiter.api_call, RateLimiter.on_success, hpos]
    · have hz : st.consecutive_429s = 0 := by omega
      simp [RateLimiter.api_call, RateLimiter.on_success, hpos, hz,
        hInv hz]
  · intro hz
    match outcome with
    | .ok v =>
      by_cases hpos : 0 < st.consecutive_429s
      · simp [RateLimiter.api_call, RateLimiter.on_success, hpos]
      · have h0 : st.consecutive_429s = 0 := by omega
        simp [RateLimiter.api_call, RateLimiter.on_success, hpos]
        exact hInv h0
    | .error e =>
      by_cases hrl : RateLimiter.is_rate_limit_error e = true
      · simp [RateLimiter.api_call, hrl, RateLimiter.on_429_error] at hz
      · simp [RateLimiter.api_call, hrl] at hz ⊢
        exact hInv hz

/-- Witness for C8 at a concrete 429 error from the constructor state with
backoff factor 2 and max backoff 30. -/
theorem RateLimiter.api_call_spec_witness :
    (RateLimiter.api_call (α := ℕ) ⟨2, 30⟩ ⟨0, 0⟩
        (.error "HTTP 429 Too Many Requests")).1.consecutive_429s =
      0 + 1 ∧
    (RateLimiter.api_call (α := ℕ) ⟨2, 30⟩ ⟨0, 0⟩
        (.error "HTTP 429 Too Many Requests")).1.current_backoff =
      min ((2 : ℚ) ^ (0 + 1)) 30 ∧
    (RateLimiter.api_call (α := ℕ) ⟨2, 30⟩ ⟨0, 0⟩
        (.error "HTTP 429 Too Many Requests")).2.1 =
      (RateLimiter.api_call (α := ℕ) ⟨2, 30⟩ ⟨0, 0⟩
        (.error "HTTP 429 Too Many Requests")).1.current_backoff ∧
    (RateLimiter.api_call (α := ℕ) ⟨2, 30⟩ ⟨0, 0⟩
        (.error "HTTP 429 Too Many Requests")).2.2 =
      .error "HTTP 429 Too Many Requests" :=
  (RateLimiter.api_call_spec ⟨2, 30⟩ ⟨0, 0⟩
    (.error "HTTP 429 Too Many Requests") (fun _ => rfl)).1
    "HTTP 429 Too Many Requests" rfl (by decide)

/-- Round-half-even of an integer is that integer. -/
theorem roundHalfEven_intCast (n : ℤ) : roundHalfEven (n : ℚ) = n := by
  simp [roundHalfEven]

/-- Python round is the identity on integer values. -/
theorem pyRound_intCast (n : ℤ) (d : ℕ) : pyRound (n : ℚ) d = n := by
  unfold pyRound
  rw [show ((n : ℚ) * 10 ^ d) = ((n * 10 ^ d : ℤ) : ℚ) by push_cast; ring,
    roundHalfEven_intCast]
  push_cast
  rw [mul_div_assoc, div_self (by positivity), mul_one]

/-- Python's `if b < a then b else a` is min a b. -/
theorem ite_lt_eq_min (a b : ℚ) :
    (if b < a then b else a) = min a b := by
  rcases le_or_lt a b with hab | hab
  · rw [if_neg (not_lt.mpr hab), min_eq_left hab]
  · rw [if_pos hab, min_eq_right hab.le]

/-- C3 counterexample: at account value 1000 with margin used 999.5, the
pipeline submits a size of 70 BTC-units (position_size_usd 100, confidence
0.7, mid price 1) although the Risk Monitor's position_size_limit at the
same user state and price is 1.5: the execution pipeline never clamps to
the Risk Monitor's limit and the submitted size exceeds it. -/
theorem Strategies.pipeline_exceeds_risk_limit_counterexample :
    Strategies.execute_signal_size 4
      ⟨some "buy", some "limit", none, some true, some (7/10)⟩
      (Strategies.calculate_position_size ⟨100, 3⟩ [] "BTC"
        ⟨some "buy", some "limit", none, some true, some (7/10)⟩
        (some ⟨1, 1, 1⟩)
        (.ok (some ⟨some ⟨some 1000, some (1999/2), some 0⟩, some []⟩)))
      (some ⟨1, 1, 1⟩) = some 70 ∧
    RiskManager.calculate_position_size_limit ⟨3, 1/5, 1/10, 1/20⟩
      ⟨none, none, 0, []⟩ 0
      (.ok (some ⟨some ⟨some 1000, some (1999/2), some 0⟩, some []⟩)) 1
      = 3/2 ∧
    ¬ ((70 : ℚ) ≤ 3/2) := by
  refine ⟨?_, ?_, by norm_num⟩
  · have hcalc : Strategies.calculate_position_size ⟨100, 3⟩ [] "BTC"
        ⟨some "buy", some "limit", none, some true, some (7/10)⟩
        (some ⟨1, 1, 1⟩)
        (.ok (some ⟨some ⟨some 1000, some (1999/2), some 0⟩, some []⟩))
        = 70 := by
      simp only [Strategies.calculate_position_size]
      norm_num
      rw [show (70 : ℚ) = ((70 : ℤ) : ℚ) by norm_num, pyRound_intCast]
    rw [hcalc]
    simp only [Strategies.execute_signal_size]
    norm_num
    rw [show (70 : ℚ) = ((70 : ℤ) : ℚ) by norm_num, pyRound_intCast]
  · rw [RiskManager.calc_limit_eq _ _ _ _ _ rfl _]
    norm_num [min_def]

/-- C3 amended: the sizing step clamps the confidence-scaled nominal USD
size to 10% of the venue-reported account value — not to the Risk
Monitor's position_size_limit, which the pipeline never consults — and
submits round(min(position_size_usd * confidence, account value / 10) /
mid price, 4), re-rounded to the coin's size decimals; the result can
exceed the Risk Monitor's limit. -/
theorem Strategies.position_size_clamp_amended (cfg : Strategies.SMAConfig)
    (positions : List (String × Strategies.PosInfo)) (coin : String)
    (signal : Strategies.Signal) (m : Strategies.MarketData)
    (u : RiskManager.UserState) (ms : RiskManager.MarginSummary) (av : ℚ)
    (hlen : ¬ (cfg.max_positions ≤ positions.length ∧
      positions.any (fun p => p.1 = coin) = false))
    (hmid : ¬ m.mid_price = 0)
    (hms : u.marginSummary = some ms) (hav : ms.accountValue = some av) :
    Strategies.calculate_position_size cfg positions coin signal (some m)
        (.ok (some u)) =
      pyRound
        (min (cfg.position_size_usd * signal.confidence.getD (1/2))
          (av * (1/10)) / m.mid_price) 4 := by
  simp only [Strategies.calculate_position_size, if_neg hlen, hms, hav,
    if_neg hmid]
  rcases lt_or_le (av * (1/10))
      (cfg.position_size_usd * signal.confidence.getD (1/2)) with hc | hc
  · rw [if_pos hc, min_eq_right hc.le]
  · rw [if_neg (not_lt.mpr hc), min_eq_left hc]

/-- Witness for the amended C3 at account value 1000, confidence 0.7,
position_size_usd 100, mid price 1. -/
theorem Strategies.position_size_clamp_amended_witness :
    Strategies.calculate_position_size ⟨100, 3⟩ [] "BTC"
        ⟨some "buy", some "limit", none, some true, some (7/10)⟩
        (some ⟨1, 1, 1⟩)
        (.ok (some ⟨some ⟨some 1000, some 0, some 0⟩, some []⟩)) =
      pyRound (min (100 * ((7/10 : ℚ))) (1000 * (1/10)) / 1) 4 :=
  Strategies.position_size_clamp_amended ⟨100, 3⟩ [] "BTC"
    ⟨some "buy", some "limit", none, some true, some (7/10)⟩ ⟨1, 1, 1⟩
    ⟨some ⟨some 1000, some 0, some 0⟩, some []⟩
    ⟨some 1000, some 0, some 0⟩ 1000 (by norm_num) (by norm_num) rfl rfl

/-- C5 counterexample: with a tracked position for symbol A whose
margin_used is 0, the PnL division in should_close_position raises
ZeroDivisionError out of the run loop — the tick aborts with neither A nor
the remaining symbol B processed, so the exception is not caught at the
symbol granularity. -/
theorem Strategies.run_aborts_counterexample :
    Strategies.run_strategy
      ⟨⟨none, none⟩, [("A", ⟨1, 10, 5, 0⟩)], fun _ => some ⟨1, 1, 1⟩,
        fun _ => 4, ⟨100, 3⟩, .ok none⟩
      (fun _ => none) ["A", "B"] = ([], some PyErr.zeroDivision) := rfl

/-- should_close_position returns without raising whenever the coin's
tracked position (if any) has nonzero margin_used. -/
theorem Strategies.should_close_position_ok (scfg : Strategies.StratConfig)
    (positions : List (String × Strategies.PosInfo))
    (md : String → Option Strategies.MarketData) (c : String)
    (h : ∀ pos, Strategies.lookupPos positions c = some pos →
      pos.margin_used ≠ 0) :
    ∃ b, Strategies.should_close_position scfg positions md c = .ok b := by
  unfold Strategies.should_close_position
  cases hl : Strategies.lookupPos positions c with
  | none => exact ⟨false, rfl⟩
  | some pos =>
    cases hm : md c with
    | none => exact ⟨false, rfl⟩
    | some m =>
      have hmu : pos.margin_used ≠ 0 := h pos hl
      simp only [pyDiv, if_neg hmu]
      by_cases h1 : scfg.take_profit_percent.getD 10 ≤
          pos.unrealized_pnl / pos.margin_used * 100
      · exact ⟨true, by simp [Except.bind, Bind.bind, h1]⟩
      · by_cases h2 : pos.unrealized_pnl / pos.margin_used * 100 ≤
            -(scfg.stop_loss_percent.getD 5)
        · exact ⟨true, by simp [Except.bind, Bind.bind, h1, h2]⟩
        · exact ⟨false, by simp [Except.bind, Bind.bind, h1, h2]⟩

/-- The per-symbol step completes without raising whenever the symbol's
tracked position (if any) has nonzero margin_used: signal generation and
execution absorb their own failures. -/
theorem Strategies.process_coin_ok (env : Strategies.RunEnv)
    (gen : String → Option Strategies.Signal) (c : String)
    (h : ∀ pos, Strategies.lookupPos env.positions c = some pos →
      pos.margin_used ≠ 0) :
    ∃ out, Strategies.process_coin env gen c = .ok out := by
  obtain ⟨b, hb⟩ :=
    Strategies.should_close_position_ok env.scfg env.positions env.md c h
  cases b with
  | true =>
    cases hcp : Strategies.close_position env.positions env.szDec c with
    | none =>
      exact ⟨.noClose, by simp [Strategies.process_coin, hb, hcp]⟩
    | some p =>
      obtain ⟨side, sz⟩ := p
      exact ⟨.closed side sz, by simp [Strategies.process_coin, hb, hcp]⟩
  | false =>
    cases hg : gen c with
    | none => exact ⟨.noAction, by simp [Strategies.process_coin, hb, hg]⟩
    | some sig =>
      cases hx : Strategies.execute_signal_size (env.szDec c) sig
          (Strategies.calculate_position_size env.smaCfg env.positions c
            sig (env.md c) env.fetchUS) (env.md c) with
      | none =>
        exact ⟨.noAction, by simp [Strategies.process_coin, hb, hg, hx]⟩
      | some sz =>
        exact ⟨.executed sz, by simp [Strategies.process_coin, hb, hg, hx]⟩

/-- The run loop completes every symbol when no per-symbol step raises. -/
theorem Strategies.run_go_ok (env : Strategies.RunEnv)
    (gen : String → Option Strategies.Signal) :
    ∀ (coins : List String)
      (acc : List (String × Strategies.CoinOutcome)),
    (∀ c ∈ coins, ∀ pos,
      Strategies.lookupPos env.positions c = some pos →
      pos.margin_used ≠ 0) →
    (Strategies.run_strategy_go env gen coins acc).2 = none ∧
    (Strategies.run_strategy_go env gen coins acc).1.map Prod.fst =
      (acc.reverse.map Prod.fst) ++ coins
  | [], acc, _ => by simp [Strategies.run_strategy_go]
  | c :: cs, acc, h => by
    obtain ⟨out, hout⟩ :=
      Strategies.process_coin_ok env gen c (h c (List.mem_cons_self c cs))
    have ih := Strategies.run_go_ok env gen cs ((c, out) :: acc)
      (fun c' hc' => h c' (List.mem_cons_of_mem _ hc'))
    simp only [Strategies.run_strategy_go, hout]
    refine ⟨ih.1, ?_⟩
    rw [ih.2]
    simp

/-- C5 amended: exceptions inside signal generation, sizing and order
execution are absorbed within those steps (they are total in the model,
mirroring the source's try/except blocks), but the take-profit/stop-loss
evaluation and position closing are not protected: the tick processes
every symbol exactly when no symbol's close path raises, which holds
whenever every tracked position has nonzero margin_used; a zero
margin_used aborts the remaining symbols (see the counterexample). -/
theorem Strategies.run_error_containment_amended (env : Strategies.RunEnv)
    (gen : String → Option Strategies.Signal) (coins : List String)
    (hsafe : ∀ c ∈ coins, ∀ pos,
      Strategies.lookupPos env.positions c = some pos →
      pos.margin_used ≠ 0) :
    (Strategies.run_strategy env gen coins).2 = none ∧
    (Strategies.run_strategy env gen coins).1.map Prod.fst = coins := by
  have h := Strategies.run_go_ok env gen coins [] hsafe
  simpa [Strategies.run_strategy] using h

/-- Witness for the amended C5: two symbols, one tracked position with
nonzero margin; both symbols complete. -/
theorem Strategies.run_error_containment_amended_witness :
    (Strategies.run_strategy
      ⟨⟨none, none⟩, [("A", ⟨1, 10, 5, 1⟩)], fun _ => some ⟨1, 1, 1⟩,
        fun _ => 4, ⟨100, 3⟩, .ok none⟩
      (fun _ => none) ["A", "B"]).2 = none ∧
    (Strategies.run_strategy
      ⟨⟨none, none⟩, [("A", ⟨1, 10, 5, 1⟩)], fun _ => some ⟨1, 1, 1⟩,
        fun _ => 4, ⟨100, 3⟩, .ok none⟩
      (fun _ => none) ["A", "B"]).1.map Prod.fst = ["A", "B"] :=
  Strategies.run_error_containment_amended
    ⟨⟨none, none⟩, [("A", ⟨1, 10, 5, 1⟩)], fun _ => some ⟨1, 1, 1⟩,
      fun _ => 4, ⟨100, 3⟩, .ok none⟩
    (fun _ => none) ["A", "B"]
    (by
      intro c hc pos hp
      rcases List.mem_cons.mp hc with rfl | hc2
      · simp [Strategies.lookupPos] at hp
        subst hp
        exact one_ne_zero
      · rcases List.mem_cons.mp hc2 with rfl | h3
        · simp [Strategies.lookupPos] at hp
        · cases h3)
